import Mathlib

/-!
Verification of the v2m (video2mp3) job pipeline.

Shallow embedding of the Go sources:
  * `internal/jobs/status.go`   - job status constants
  * `internal/store/store.go`   - job record store (rows, list, delete, update)
  * `cmd/api/main.go`           - retry handler, rate limiter, SSE stream,
                                  list-limit clamping, cleanup loop
  * `cmd/worker/main.go`        - pipeline executor, resumable download,
                                  failure recording / skip-retry logic

Machine integers are modelled as `Nat`/`Int`; timestamps as `Nat` (or `Int`
for wall-clock arithmetic in the rate limiter); SQL rows as Lean lists.
-/

namespace V2M

/-- Job status constants from `internal/jobs/status.go`. -/
inductive Status where
  | queued
  | downloading
  | transcoding
  | ready
  | failed
  | expired
deriving DecidableEq, Repr

/-- A job row, from `store.Job` (`internal/store/store.go`).
`sql.NullString` fields become `Option String`; timestamps become `Nat`. -/
structure Job where
  id : String
  sourceURL : String
  platform : String
  status : Status
  error : Option String
  mp3URL : Option String
  createdAt : Nat
  updatedAt : Nat
deriving DecidableEq, Repr

/-- `Store.UpdateJobStatus` applied to one row: the SQL
`SET status = $2, error = $3, mp3_url = $4, updated_at = NOW()` overwrites
exactly those four columns and nothing else. -/
def updateRow (j : Job) (status : Status) (errMsg mp3URL : Option String) (now : Nat) : Job :=
  { j with status := status, error := errMsg, mp3URL := mp3URL, updatedAt := now }

/-- The row inserted by `Store.CreateJob` for the API `POST /jobs` handler:
`status = queued`, `error = NULL`, `mp3_url = NULL`. -/
def createdJob (id sourceURL platform : String) (now : Nat) : Job :=
  { id := id, sourceURL := sourceURL, platform := platform,
    status := .queued, error := none, mp3URL := none,
    createdAt := now, updatedAt := now }

/-- The write operations the system ever performs on an existing job row,
each one a call to `Store.UpdateJobStatus`:
  * worker `processJob`: `UpdateJobStatus(id, downloading, nil, nil)`,
    `UpdateJobStatus(id, transcoding, nil, nil)`,
    `UpdateJobStatus(id, ready, nil, &mp3Key)`;
  * worker `recordFailure`: `UpdateJobStatus(id, failed, &msg, nil)`;
  * API retry handler: `UpdateJobStatus(id, queued, nil, nil)`. -/
inductive WriteOp where
  | toDownloading
  | toTranscoding
  | toReady (mp3Key : String)
  | recordFailure (msg : String)
  | retryRequeue
deriving DecidableEq, Repr

/-- Apply one write operation (with its wall-clock time) to a row. -/
def applyWrite (j : Job) : WriteOp × Nat → Job
  | (.toDownloading, t) => updateRow j .downloading none none t
  | (.toTranscoding, t) => updateRow j .transcoding none none t
  | (.toReady key, t) => updateRow j .ready none (some key) t
  | (.recordFailure msg, t) => updateRow j .failed (some msg) none t
  | (.retryRequeue, t) => updateRow j .queued none none t

/-- A job row after creation followed by an arbitrary sequence of writes. -/
def runWrites (j : Job) (ops : List (WriteOp × Nat)) : Job :=
  ops.foldl applyWrite j

/-- The spec's row invariant: `resultRef` (mp3_url) non-null iff `ready`,
`error` non-null iff `failed`. -/
def jobInvariant (j : Job) : Prop :=
  (j.mp3URL ≠ none ↔ j.status = .ready) ∧ (j.error ≠ none ↔ j.status = .failed)

theorem applyWrite_invariant (j : Job) (op : WriteOp × Nat) :
    jobInvariant (applyWrite j op) := by
  rcases op with ⟨op, t⟩
  cases op <;> simp [applyWrite, updateRow, jobInvariant]

theorem runWrites_invariant (j : Job) (ops : List (WriteOp × Nat))
    (h : jobInvariant j) : jobInvariant (runWrites j ops) := by
  induction ops generalizing j with
  | nil => exact h
  | cons op rest ih => exact ih _ (applyWrite_invariant j op)

/-- C1: starting from job creation, after any sequence of the system's
write operations (worker pipeline status updates, failure recording,
retry requeue), the row satisfies: mp3_url is non-null iff status = ready,
and error is non-null iff status = failed. -/
theorem c1_result_error_invariant (id url plat : String) (t0 : Nat)
    (ops : List (WriteOp × Nat)) :
    jobInvariant (runWrites (createdJob id url plat t0) ops) := by
  apply runWrites_invariant
  simp [createdJob, jobInvariant]

/-! ### Job record store over a table of rows -/

/-- The jobs table: rows keyed by `id` (UUID primary key). -/
abbrev JobTable := List Job

/-- `Store.GetJob`: `SELECT ... WHERE id = $1`; `sql.ErrNoRows` becomes `none`. -/
def getJob (db : JobTable) (id : String) : Option Job :=
  db.find? (fun j => j.id = id)

/-- `Store.UpdateJobStatus` over the whole table: the SQL
`UPDATE jobs SET status=$2, error=$3, mp3_url=$4, updated_at=NOW() WHERE id=$1`
rewrites every row whose id matches (zero or more rows) and reports no error
either way — `ExecContext`'s result is discarded. -/
def updateJobStatus (db : JobTable) (id : String) (status : Status)
    (errMsg mp3URL : Option String) (now : Nat) : JobTable × Except String Unit :=
  (db.map (fun j => if j.id = id then updateRow j status errMsg mp3URL now else j),
   Except.ok ())

/-- Result of the `POST /jobs/{id}/retry` handler (`cmd/api/main.go`). -/
inductive RetryResult where
  | notFound
  | conflict
  | accepted
deriving DecidableEq, Repr

/-- The `POST /jobs/{id}/retry` handler: load the job (404 when absent);
409 `job not retryable` unless `status ∈ {failed, expired}`; otherwise
`UpdateJobStatus(id, queued, nil, nil)` and re-enqueue the task. -/
def retryHandler (db : JobTable) (id : String) (now : Nat) : RetryResult × JobTable :=
  match getJob db id with
  | none => (.notFound, db)
  | some j =>
    if j.status ≠ .failed ∧ j.status ≠ .expired then
      (.conflict, db)
    else
      (.accepted, (updateJobStatus db j.id .queued none none now).1)

/-- C2: retry is accepted exactly when the job's status is failed or
expired; on any other status the handler answers conflict and leaves the
table unchanged. -/
theorem c2_retry_guard (db : JobTable) (id : String) (now : Nat) (j : Job)
    (hj : getJob db id = some j) :
    ((retryHandler db id now).1 = .accepted ↔
      (j.status = .failed ∨ j.status = .expired)) ∧
    ((retryHandler db id now).1 ≠ .accepted →
      (retryHandler db id now).1 = .conflict ∧ (retryHandler db id now).2 = db) := by
  cases hstat : j.status <;> simp [retryHandler, hj, hstat]

/-- Witness for C2 at a concrete table: a queued job yields conflict with
the table unchanged. -/
theorem c2_retry_guard_witness :
    let j : Job := createdJob "a" "u" "douyin" 0
    getJob [j] "a" = some j ∧
    (((retryHandler [j] "a" 5).1 = .accepted ↔
        (j.status = .failed ∨ j.status = .expired)) ∧
      ((retryHandler [j] "a" 5).1 ≠ .accepted →
        (retryHandler [j] "a" 5).1 = .conflict ∧ (retryHandler [j] "a" 5).2 = [j])) :=
  ⟨by decide, c2_retry_guard [createdJob "a" "u" "douyin" 0] "a" 5
      (createdJob "a" "u" "douyin" 0) (by decide)⟩

/-- C10: `UpdateJobStatus` with an id that matches no row returns success
(no not-found error is surfaced) and leaves every row unchanged. -/
theorem c10_update_missing_id (db : JobTable) (id : String) (status : Status)
    (errMsg mp3URL : Option String) (now : Nat)
    (h : ∀ j ∈ db, j.id ≠ id) :
    updateJobStatus db id status errMsg mp3URL now = (db, Except.ok ()) := by
  unfold updateJobStatus
  congr 1
  calc db.map (fun j => if j.id = id then updateRow j status errMsg mp3URL now else j)
      = db.map (fun j => j) := by
        apply List.map_congr_left
        intro j hj
        simp [h j hj]
    _ = db := List.map_id' db

/-- Witness for C10 at a concrete table with a non-matching row. -/
theorem c10_update_missing_id_witness :
    (∀ j ∈ [createdJob "a" "u" "douyin" 0], j.id ≠ "b") ∧
    updateJobStatus [createdJob "a" "u" "douyin" 0] "b" .ready none (some "k") 7 =
      ([createdJob "a" "u" "douyin" 0], Except.ok ()) :=
  ⟨by decide,
   c10_update_missing_id [createdJob "a" "u" "douyin" 0] "b" .ready none (some "k") 7
     (by decide)⟩

/-! ### Recency-ordered listing (`Store.ListJobs`, `GET /jobs` limit clamp) -/

/-- The `ORDER BY created_at DESC` ordering of the `ListJobs` query. -/
def byCreatedDesc (a b : Job) : Prop := b.createdAt ≤ a.createdAt

instance : DecidableRel byCreatedDesc := fun a b => Nat.decLe b.createdAt a.createdAt

instance : IsTotal Job byCreatedDesc :=
  ⟨fun a b => (Nat.le_total b.createdAt a.createdAt).elim Or.inl Or.inr⟩

instance : IsTrans Job byCreatedDesc :=
  ⟨fun _ _ _ hab hbc => Nat.le_trans hbc hab⟩

/-- `Store.ListJobs`: `SELECT ... ORDER BY created_at DESC LIMIT $1`,
with the store-side guard `if limit <= 0 { limit = 20 }`. -/
def listJobs (db : JobTable) (limit : Int) : List Job :=
  let lim := if limit ≤ 0 then (20 : Int) else limit
  (List.insertionSort byCreatedDesc db).take lim.toNat

/-- The `GET /jobs` handler's limit computation: start at 20, overwrite with
the parsed query value when present, then `if limit <= 0 { 20 }` and
`if limit > 100 { 100 }`. `none` models a missing or unparsable query. -/
def clampLimit (raw : Option Int) : Int :=
  let l : Int := match raw with | some v => v | none => 20
  let l := if l ≤ 0 then 20 else l
  if l > 100 then 100 else l

/-- C9: the effective limit defaults to 20 when missing or non-positive and
is capped at 100 (and passed through otherwise); the listing returns at most
that many rows, ordered by `createdAt` descending, all drawn from the table. -/
theorem c9_list_recent_bounded (db : JobTable) (raw : Option Int) :
    (1 ≤ clampLimit raw ∧ clampLimit raw ≤ 100) ∧
    clampLimit none = 20 ∧
    (∀ v : Int, clampLimit (some v) =
      if v ≤ 0 then 20 else if v > 100 then 100 else v) ∧
    (listJobs db (clampLimit raw)).length ≤ (clampLimit raw).toNat ∧
    List.Sorted byCreatedDesc (listJobs db (clampLimit raw)) ∧
    (∀ j ∈ listJobs db (clampLimit raw), j ∈ db) := by
  refine ⟨?_, rfl, ?_, ?_, ?_, ?_⟩
  · rcases raw with _ | v
    · simp [clampLimit]
    · simp only [clampLimit]
      split_ifs <;> omega
  · intro v
    simp only [clampLimit]
    split_ifs <;> first | rfl | omega
  · have h1 : ¬ clampLimit raw ≤ 0 := by
      rcases raw with _ | v
      · simp [clampLimit]
      · simp only [clampLimit]; split_ifs <;> omega
    simp only [listJobs, if_neg h1]
    exact List.length_take_le _ _
  · exact (List.sorted_insertionSort byCreatedDesc db).sublist
      (List.take_sublist _ _)
  · intro j hj
    exact (List.perm_insertionSort byCreatedDesc db).subset
      (List.take_subset _ _ hj)


/-! ### Admission controller (`rateLimiter.allow`, `cmd/api/main.go`) -/

/-- One `rateEntry` of the in-memory limiter map. `reset` is wall-clock
time (`Int`, in a fixed unit such as seconds). -/
structure RateEntry where
  count : Nat
  reset : Int
deriving DecidableEq, Repr

/-- The limiter state restricted to a single client key:
`rl.entries[key]`, absent = `none`. -/
abbrev RateState := Option RateEntry

/-- `rateLimiter.allow` for one key at wall-clock `now`: the disabled
path (`rl.limit <= 0 || rl.window <= 0`) returns `(true, 0, -1)`;
otherwise a missing or elapsed window (`now.After(entry.reset)`, strict)
is replaced by a fresh `{count: 0, reset: now + window}`; a full window
rejects with the time until reset (clamped at 0); otherwise the count is
incremented and the remaining budget returned. Result:
(allowed, retryAfter, remaining, new per-key state). -/
def allow (limit : Nat) (window : Int) (st : RateState) (now : Int) :
    Bool × Int × Int × RateState :=
  if limit = 0 ∨ window ≤ 0 then (true, 0, -1, st)
  else
    let entry : RateEntry :=
      match st with
      | none => ⟨0, now + window⟩
      | some e => if now > e.reset then ⟨0, now + window⟩ else e
    if limit ≤ entry.count then
      let ra := max (entry.reset - now) 0
      (false, ra, 0, some entry)
    else
      (true, 0, (limit : Int) - ((entry.count : Int) + 1),
       some ⟨entry.count + 1, entry.reset⟩)

/-- A sequence of requests from the same key at the given times, threading
the limiter state; returns the per-request decisions and the final state. -/
def allowRun (limit : Nat) (window : Int) (st : RateState) :
    List Int → List (Bool × Int × Int) × RateState
  | [] => ([], st)
  | t :: ts =>
    let r := allow limit window st t
    let rest := allowRun limit window r.2.2.2 ts
    ((r.1, r.2.1, r.2.2.1) :: rest.1, rest.2)

/-- The decision for the i-th admitted request after `k` previous hits in
the window: admitted, zero retry-after, remaining budget `limit-(k+i+1)`. -/
def admitTriple (limit k i : Nat) : Bool × Int × Int :=
  (true, 0, (limit : Int) - ((k + i + 1 : Nat) : Int))

theorem admitTriple_shift (limit n k : Nat) :
    admitTriple limit k 0 :: (List.range n).map (admitTriple limit (k + 1)) =
      (List.range (n + 1)).map (admitTriple limit k) := by
  rw [List.range_succ_eq_map, List.map_cons, List.map_map]
  congr 1
  apply List.map_congr_left
  intro i _
  simp only [Function.comp_apply, admitTriple]
  congr 2
  omega

theorem allowRun_admits (limit : Nat) (window : Int) (hw : 0 < window) (R : Int) :
    ∀ (ts : List Int) (k : Nat), k + ts.length ≤ limit → (∀ t ∈ ts, t ≤ R) →
    allowRun limit window (some ⟨k, R⟩) ts =
      ((List.range ts.length).map (admitTriple limit k),
       some ⟨k + ts.length, R⟩) := by
  intro ts
  induction ts with
  | nil => intro k _ _; simp [allowRun]
  | cons t ts ih =>
    intro k hk hts
    have hlim : ¬ (limit = 0 ∨ window ≤ 0) := by
      simp only [List.length_cons] at hk
      push_neg
      exact ⟨by omega, hw⟩
    have hnotafter : ¬ t > R := not_lt.mpr (hts t (List.mem_cons_self t ts))
    have hcount : ¬ limit ≤ k := by
      simp only [List.length_cons] at hk; omega
    have hstep : allow limit window (some ⟨k, R⟩) t =
        (true, 0, (limit : Int) - ((k : Int) + 1), some ⟨k + 1, R⟩) := by
      simp only [allow, if_neg hlim, if_neg hnotafter, if_neg hcount]
    have hrec := ih (k + 1) (by simp only [List.length_cons] at hk; omega)
      (fun t' ht' => hts t' (List.mem_cons_of_mem t ht'))
    simp only [allowRun, hstep, hrec, List.length_cons]
    rw [← admitTriple_shift]
    have hhead : ((true : Bool), (0 : Int), (limit : Int) - ((k : Int) + 1)) =
        admitTriple limit k 0 := by
      simp only [admitTriple, Prod.mk.injEq, true_and]
      push_cast
      ring
    have hcnt : k + 1 + ts.length = k + (ts.length + 1) := by omega
    rw [hhead, hcnt]

/-- C7: starting with no window for the key, the first `L` requests falling
within the window are all admitted, the i-th returning the remaining budget
`L - i`; the next request still inside the window is rejected with a
retry-after equal to the time until the window resets, which is between 0
and `W`; and a request after the window elapses is admitted again. -/
theorem c7_rate_limit_window (L : Nat) (W t1 tr tnew : Int) (ts : List Int)
    (hL : 0 < L) (hW : 0 < W) (hlen : ts.length + 1 = L)
    (hts : ∀ t ∈ ts, t ≤ t1 + W) (hr1 : t1 ≤ tr) (hr2 : tr ≤ t1 + W)
    (hnew : t1 + W < tnew) :
    (allowRun L W none (t1 :: ts)).1 = (List.range L).map (admitTriple L 0) ∧
    (allow L W (allowRun L W none (t1 :: ts)).2 tr).1 = false ∧
    (allow L W (allowRun L W none (t1 :: ts)).2 tr).2.1 = t1 + W - tr ∧
    0 ≤ (allow L W (allowRun L W none (t1 :: ts)).2 tr).2.1 ∧
    (allow L W (allowRun L W none (t1 :: ts)).2 tr).2.1 ≤ W ∧
    (allow L W
      (allow L W (allowRun L W none (t1 :: ts)).2 tr).2.2.2 tnew).1 = true := by
  have hlim : ¬ (L = 0 ∨ W ≤ 0) := by
    push_neg
    exact ⟨by omega, hW⟩
  have h0 : ¬ L ≤ 0 := by omega
  have hstep1 : allow L W none t1 =
      (true, 0, (L : Int) - ((0 : Int) + 1), some ⟨1, t1 + W⟩) := by
    simp only [allow, if_neg hlim, if_neg h0]
    norm_num
  have hrun := allowRun_admits L W hW (t1 + W) ts 1 (by omega) hts
  have hfull : allowRun L W none (t1 :: ts) =
      ((List.range (ts.length + 1)).map (admitTriple L 0),
       some ⟨1 + ts.length, t1 + W⟩) := by
    simp only [allowRun, hstep1, hrun]
    rw [← admitTriple_shift]
    have hhead : ((true : Bool), (0 : Int), (L : Int) - ((0 : Int) + 1)) =
        admitTriple L 0 0 := by
      simp only [admitTriple, Prod.mk.injEq, true_and]
      push_cast
      ring
    rw [hhead]
  have hstate : (allowRun L W none (t1 :: ts)).2 = some ⟨L, t1 + W⟩ := by
    rw [hfull]
    have : 1 + ts.length = L := by omega
    rw [this]
  have hrej : allow L W (some (⟨L, t1 + W⟩ : RateEntry)) tr =
      (false, t1 + W - tr, 0, some ⟨L, t1 + W⟩) := by
    have hnotafter : ¬ tr > t1 + W := not_lt.mpr hr2
    have hge : L ≤ L := le_refl _
    simp only [allow, if_neg hlim, if_neg hnotafter, if_pos hge]
    have hmax : max (t1 + W - tr) 0 = t1 + W - tr := by omega
    rw [hmax]
  refine ⟨?_, ?_, ?_, ?_, ?_, ?_⟩
  · rw [hfull, hlen]
  · rw [hstate, hrej]
  · rw [hstate, hrej]
  · rw [hstate, hrej]
    show (0 : Int) ≤ t1 + W - tr
    omega
  · rw [hstate, hrej]
    show t1 + W - tr ≤ W
    omega
  · rw [hstate, hrej]
    show (allow L W (some ⟨L, t1 + W⟩) tnew).1 = true
    have hafter : tnew > t1 + W := hnew
    simp only [allow, if_neg hlim, if_pos hafter, if_neg h0]

/-- Witness for C7: limit 3, window 60, requests at times 0, 10, 20 are
admitted; a request at 30 is rejected with retry-after 30 ≤ 60; a request
at 100 is admitted again. -/
theorem c7_rate_limit_window_witness :
    ((0 : Nat) < 3 ∧ (0 : Int) < 60 ∧ [(10 : Int), 20].length + 1 = 3 ∧
      (∀ t ∈ [(10 : Int), 20], t ≤ 0 + 60) ∧ (0 : Int) ≤ 30 ∧
      (30 : Int) ≤ 0 + 60 ∧ (0 : Int) + 60 < 100) ∧
    ((allowRun 3 60 none (0 :: [10, 20])).1 =
      (List.range 3).map (admitTriple 3 0) ∧
    (allow 3 60 (allowRun 3 60 none (0 :: [10, 20])).2 30).1 = false ∧
    (allow 3 60 (allowRun 3 60 none (0 :: [10, 20])).2 30).2.1 = 0 + 60 - 30 ∧
    0 ≤ (allow 3 60 (allowRun 3 60 none (0 :: [10, 20])).2 30).2.1 ∧
    (allow 3 60 (allowRun 3 60 none (0 :: [10, 20])).2 30).2.1 ≤ 60 ∧
    (allow 3 60
      (allow 3 60 (allowRun 3 60 none (0 :: [10, 20])).2 30).2.2.2 100).1 = true) :=
  ⟨⟨by decide, by decide, by decide, by decide, by decide, by decide, by decide⟩,
   c7_rate_limit_window 3 60 0 30 100 [10, 20] (by decide) (by decide) (by decide)
     (by decide) (by decide) (by decide) (by decide)⟩

/-! ### Status stream (`streamJobEvents`, `cmd/api/main.go`) -/

/-- The terminal-status test used by `streamJobEvents`:
`j.Status == ready || j.Status == failed || j.Status == expired`. -/
def isTerminal : Status → Bool
  | .ready => true
  | .failed => true
  | .expired => true
  | _ => false

/-- The poll loop of `streamJobEvents`: each tick re-reads the job; when
`!next.UpdatedAt.After(lastUpdated) && next.Status == j.Status` the tick is
skipped, otherwise the snapshot is emitted; a terminal snapshot ends the
stream. `polls` is the sequence of rows `GetJob` returns at the ticks
(ending when the observer disconnects). Keepalive comments carry no data
and are not modelled as events. -/
def streamLoop (j : Job) : List Job → List Job
  | [] => []
  | next :: rest =>
    if ¬ j.updatedAt < next.updatedAt ∧ next.status = j.status then
      streamLoop j rest
    else
      next :: (if isTerminal next.status then [] else streamLoop next rest)

/-- `streamJobEvents`: emit the current snapshot immediately; stop at once
when it is terminal, otherwise enter the poll loop. -/
def streamEmits (j0 : Job) (polls : List Job) : List Job :=
  j0 :: (if isTerminal j0.status then [] else streamLoop j0 polls)

/-- Every emitted snapshot except possibly the last one is non-terminal:
the stream closes the moment a terminal status goes out. -/
def noEarlyTerminal : List Job → Prop
  | [] => True
  | [_] => True
  | x :: y :: rest => isTerminal x.status = false ∧ noEarlyTerminal (y :: rest)

theorem noEarlyTerminal_cons {x : Job} {l : List Job}
    (hx : isTerminal x.status = false) (hl : noEarlyTerminal l) :
    noEarlyTerminal (x :: l) := by
  cases l with
  | nil => trivial
  | cons y rest => exact ⟨hx, hl⟩

theorem streamLoop_noEarlyTerminal (polls : List Job) :
    ∀ j : Job, noEarlyTerminal (streamLoop j polls) := by
  induction polls with
  | nil => intro j; trivial
  | cons next rest ih =>
    intro j
    by_cases hskip : ¬ j.updatedAt < next.updatedAt ∧ next.status = j.status
    · rw [streamLoop, if_pos hskip]
      exact ih j
    · rw [streamLoop, if_neg hskip]
      by_cases hterm : isTerminal next.status
      · rw [if_pos hterm]
        trivial
      · rw [if_neg hterm]
        exact noEarlyTerminal_cons (by simpa using hterm) (ih next)

theorem streamEmits_noEarlyTerminal (j0 : Job) (polls : List Job) :
    noEarlyTerminal (streamEmits j0 polls) := by
  unfold streamEmits
  by_cases hterm : isTerminal j0.status
  · rw [if_pos hterm]
    trivial
  · rw [if_neg hterm]
    exact noEarlyTerminal_cons (by simpa using hterm) (streamLoop_noEarlyTerminal polls j0)

/-- C8: a stream over the transition queued → downloading → ready emits
exactly the three snapshots in that order (duplicate polls of an unchanged
row are skipped) and then closes; and in any stream, no event follows a
terminal snapshot — only the last emitted snapshot can be terminal. -/
theorem c8_stream_three_snapshots (q d r : Job)
    (hq : q.status = .queued) (hd : d.status = .downloading)
    (hr : r.status = .ready)
    (h1 : q.updatedAt < d.updatedAt) (h2 : d.updatedAt < r.updatedAt) :
    streamEmits q [q, d, d, r] = [q, d, r] ∧
    ∀ (j0 : Job) (polls : List Job), noEarlyTerminal (streamEmits j0 polls) := by
  refine ⟨?_, streamEmits_noEarlyTerminal⟩
  simp [streamEmits, streamLoop, isTerminal, hq, hd, hr, h1, h2]

/-- Witness for C8 on concrete rows: creation at time 0, downloading at 1,
ready at 2. -/
theorem c8_stream_three_snapshots_witness :
    let q : Job := createdJob "a" "u" "douyin" 0
    let d : Job := updateRow q .downloading none none 1
    let r : Job := updateRow d .ready none (some "jobs/a.mp3") 2
    (q.status = .queued ∧ d.status = .downloading ∧ r.status = .ready ∧
      q.updatedAt < d.updatedAt ∧ d.updatedAt < r.updatedAt) ∧
    (streamEmits q [q, d, d, r] = [q, d, r] ∧
     ∀ (j0 : Job) (polls : List Job), noEarlyTerminal (streamEmits j0 polls)) :=
  ⟨⟨by decide, by decide, by decide, by decide, by decide⟩,
   c8_stream_three_snapshots
     (createdJob "a" "u" "douyin" 0)
     (updateRow (createdJob "a" "u" "douyin" 0) .downloading none none 1)
     (updateRow (updateRow (createdJob "a" "u" "douyin" 0) .downloading none none 1)
       .ready none (some "jobs/a.mp3") 2)
     (by decide) (by decide) (by decide) (by decide) (by decide)⟩

/-! ### Video resolution and skip-retry classification (`cmd/worker/main.go`) -/

/-- `strings.TrimSpace(s) == ""`: every character is whitespace. -/
def isBlank (s : String) : Bool :=
  s.toList.all Char.isWhitespace

/-- Whether the second character list starts with the first
(Go `strings.HasPrefix` on the underlying runes). -/
def startsWithChars : List Char → List Char → Bool
  | [], _ => true
  | _ :: _, [] => false
  | a :: as, b :: bs => a == b && startsWithChars as bs

/-- Whether `sub` occurs contiguously inside the second list. -/
def hasSubChars (sub : List Char) : List Char → Bool
  | [] => startsWithChars sub []
  | b :: bs => startsWithChars sub (b :: bs) || hasSubChars sub bs

/-- Go's `strings.Contains(s, sub)`. -/
def containsSub (s sub : String) : Bool :=
  hasSubChars sub.toList s.toList

/-- The `data` object of the parser response. -/
structure ParserData where
  videoID : String
  platform : String
  title : String
  videoURL : String
  coverURL : String
  audioURL : String
deriving DecidableEq, Repr

/-- `parserResponse` from `cmd/worker/main.go`. -/
structure ParserResponse where
  retcode : Int
  retdesc : String
  data : ParserData
  succ : Bool
deriving DecidableEq, Repr

/-- `parserResult` from `cmd/worker/main.go`. -/
structure ParserResult where
  videoURL : String
  audioURL : String
  platform : String
deriving DecidableEq, Repr

/-- The response-validation part of `parseWithParser`, given the
collaborator's HTTP status and decoded body:
non-200 → `parser http status N`; `!Succ || Retcode != 200` →
`parser error: R D`; both media URLs blank (`strings.TrimSpace` empty) →
`parser returned no media url`. -/
def parseWithParser (httpStatus : Nat) (p : ParserResponse) :
    Except String ParserResult :=
  if httpStatus ≠ 200 then
    .error ("parser http status " ++ toString httpStatus)
  else if p.succ = false ∨ p.retcode ≠ 200 then
    .error ("parser error: " ++ toString p.retcode ++ " " ++ p.retdesc)
  else if isBlank p.data.videoURL && isBlank p.data.audioURL then
    .error "parser returned no media url"
  else
    .ok ⟨p.data.videoURL, p.data.audioURL, p.data.platform⟩

/-- `shouldSkipRetry`: the worker signals `asynq.SkipRetry` (do not
requeue) exactly when the failure message contains one of the two
media-url messages. -/
def shouldSkipRetry (msg : String) : Bool :=
  containsSub msg "parser returned no media url" ||
  containsSub msg "parser returned empty media url"

/-- `truncate(s, max)` from `cmd/worker/main.go` (length in characters). -/
def truncateStr (s : String) (max : Nat) : String :=
  if max = 0 ∨ s.length ≤ max then s else s.take max ++ "..."

/-- `recordFailure`: persist `status=failed` with the truncated message,
then return `asynq.SkipRetry` (no requeue, second component `true`) only
when `shouldSkipRetry` matches. -/
def recordFailureOutcome (db : JobTable) (id msg : String) (t : Nat) :
    JobTable × Bool :=
  ((updateJobStatus db id .failed (some (truncateStr msg 800)) none t).1,
   shouldSkipRetry msg)

/-- Counterexample to C3: a resolution failure reported by the parser
(`succ=false`, retcode 500) produces the message `parser error: 500 boom`;
`recordFailure` marks the job failed but does NOT signal skip-retry, so
this resolution failure is requeued at the task-dispatch layer — likewise
a non-200 parser HTTP status. -/
theorem c3_counterexample_parser_error_requeued :
    parseWithParser 200 ⟨500, "boom", ⟨"", "", "", "", "", ""⟩, false⟩ =
      .error "parser error: 500 boom" ∧
    shouldSkipRetry "parser error: 500 boom" = false ∧
    shouldSkipRetry "parser http status 502" = false ∧
    (recordFailureOutcome [createdJob "a" "u" "douyin" 0] "a"
        "parser error: 500 boom" 3).2 = false ∧
    getJob (recordFailureOutcome [createdJob "a" "u" "douyin" 0] "a"
        "parser error: 500 boom" 3).1 "a" =
      some (updateRow (createdJob "a" "u" "douyin" 0) .failed
        (some "parser error: 500 boom") none 3) := by
  refine ⟨by rfl, by decide, by decide, by decide, by decide⟩

/-- C3 (amended): only the no-media/empty-media resolution outcomes are
terminal: when the parser succeeds but returns blank media URLs the worker
fails the job and signals skip-retry; the empty-media message is likewise
skip-retried; parser-reported errors and non-200 parser HTTP statuses are
marked failed but left to the dispatcher's retry budget. -/
theorem c3_skip_retry_only_empty_media (p : ParserResponse)
    (hsucc : p.succ = true) (hret : p.retcode = 200)
    (hv : isBlank p.data.videoURL = true) (ha : isBlank p.data.audioURL = true) :
    parseWithParser 200 p = .error "parser returned no media url" ∧
    shouldSkipRetry "parser returned no media url" = true ∧
    shouldSkipRetry "parser returned empty media url" = true ∧
    shouldSkipRetry "parser error: 500 boom" = false ∧
    shouldSkipRetry "parser http status 502" = false := by
  refine ⟨?_, by decide, by decide, by decide, by decide⟩
  simp [parseWithParser, hsucc, hret, hv, ha]

/-- Witness for the amended C3 at a concrete parser response. -/
theorem c3_skip_retry_only_empty_media_witness :
    let p : ParserResponse := ⟨200, "ok", ⟨"v1", "douyin", "t", " ", "", ""⟩, true⟩
    (p.succ = true ∧ p.retcode = 200 ∧
      isBlank p.data.videoURL = true ∧ isBlank p.data.audioURL = true) ∧
    (parseWithParser 200 p = .error "parser returned no media url" ∧
     shouldSkipRetry "parser returned no media url" = true ∧
     shouldSkipRetry "parser returned empty media url" = true ∧
     shouldSkipRetry "parser error: 500 boom" = false ∧
     shouldSkipRetry "parser http status 502" = false) :=
  ⟨⟨by decide, by decide, by decide, by decide⟩,
   c3_skip_retry_only_empty_media ⟨200, "ok", ⟨"v1", "douyin", "t", " ", "", ""⟩, true⟩
     (by decide) (by decide) (by decide) (by decide)⟩

/-! ### Resumable fetcher (`downloadOnce` / `downloadToFile`) -/

/-- The HTTP response one download attempt observes. `bodyLen` is the
number of body bytes received before the stream ends; `truncated` marks a
transport-level unexpected end of stream during `io.Copy`. -/
structure HttpResponse where
  status : Nat
  bodyLen : Nat
  truncated : Bool
deriving DecidableEq, Repr

/-- A download failure: `downloadError{err, retryable}` for HTTP statuses,
a transport error (always wrapped `retryable: true`), the empty-URL guard,
or `ctx.Err()` after cancellation. -/
inductive DlErr where
  | emptyURL
  | http (status : Nat) (retryable : Bool)
  | transport
  | canceled
deriving DecidableEq, Repr

/-- `isRetryableDownload`: a `downloadError` answers its own flag; every
transport error is retryable (the function falls through to `true`). -/
def dlRetryable : DlErr → Bool
  | .http _ r => r
  | .transport => true
  | .emptyURL => true
  | .canceled => false

/-- The local file at `destPath`: `none` when absent, `some n` when `n`
bytes are present. `os.Stat` yields offset 0 for a missing file. -/
def fileOffset : Option Nat → Nat
  | some n => n
  | none => 0

/-- The `Range: bytes=offset-` header is sent only when `offset > 0`. -/
def rangeHeaderOf (file : Option Nat) : Option Nat :=
  if 0 < fileOffset file then some (fileOffset file) else none

/-- `downloadOnce`: stat the partial file, send a range request when it is
non-empty; `200`/`206` stream the body (append only on `206` with a
positive offset, truncate-create otherwise), a mid-body truncation is a
retryable transport error; `416` removes the partial file and fails
retryably; any other status leaves the file and is retryable iff
`status >= 500 || status == 429`. Returns the new file state and the
attempt's error, `none` on success. -/
def downloadOnce (file : Option Nat) (resp : Option Nat → HttpResponse) :
    Option Nat × Option DlErr :=
  let offset := fileOffset file
  let r := resp (rangeHeaderOf file)
  if r.status = 200 ∨ r.status = 206 then
    let newFile :=
      if r.status = 206 ∧ 0 < offset then some (offset + r.bodyLen)
      else some r.bodyLen
    if r.truncated then (newFile, some .transport) else (newFile, none)
  else if r.status = 416 then
    (none, some (.http 416 true))
  else
    (file, some (.http r.status (decide (500 ≤ r.status) || decide (r.status = 429))))

/-- The observable trace of a `downloadToFile` call: final result (`none`
is success), one entry per attempt (the Range header sent and the
attempt's outcome), the backoff sleeps taken (in seconds), and the final
file state. -/
structure DlRun where
  result : Option DlErr
  attempts : List (Option Nat × Option DlErr)
  backoffs : List Nat
  file : Option Nat
deriving DecidableEq, Repr

/-- The `for attempt := 1; attempt <= maxAttempts; attempt++` loop of
`downloadToFile`: success returns at once; a non-retryable error or the
last attempt returns the current (= last) error; otherwise sleep
`attempt` seconds — abandoned with `ctx.Err()` when the context is
cancelled (`cancel attempt`) — and try again. `resp attempt` is the
server's behaviour on that attempt; `fuel` counts the remaining
attempts. -/
def downloadLoop (resp : Nat → Option Nat → HttpResponse) (cancel : Nat → Bool)
    (maxAttempts : Nat) :
    Nat → Nat → Option Nat → Option DlErr → DlRun
  | _, 0, file, lastErr => ⟨lastErr, [], [], file⟩
  | attempt, fuel + 1, file, _ =>
    let res := downloadOnce file (resp attempt)
    let att := (rangeHeaderOf file, res.2)
    match res.2 with
    | none => ⟨none, [att], [], res.1⟩
    | some e =>
      if dlRetryable e = false ∨ attempt = maxAttempts then
        ⟨some e, [att], [], res.1⟩
      else if cancel attempt then
        ⟨some .canceled, [att], [], res.1⟩
      else
        let rest := downloadLoop resp cancel maxAttempts (attempt + 1) fuel res.1 (some e)
        ⟨rest.result, att :: rest.attempts, attempt :: rest.backoffs, rest.file⟩

/-- `downloadToFile`: reject a blank URL, then run up to
`maxAttempts = 3` attempts starting from attempt 1. -/
def downloadToFile (url : String) (resp : Nat → Option Nat → HttpResponse)
    (cancel : Nat → Bool) (file0 : Option Nat) : DlRun :=
  if isBlank url then ⟨some .emptyURL, [], [], file0⟩
  else downloadLoop resp cancel 3 1 3 file0 none

theorem downloadLoop_attempts_ne_nil (resp : Nat → Option Nat → HttpResponse)
    (cancel : Nat → Bool) (maxA attempt fuel : Nat) (file : Option Nat)
    (lastErr : Option DlErr) :
    (downloadLoop resp cancel maxA attempt (fuel + 1) file lastErr).attempts ≠ [] := by
  rw [downloadLoop]
  cases hres : (downloadOnce file (resp attempt)).2 with
  | none => simp
  | some e =>
    by_cases hstop : dlRetryable e = false ∨ attempt = maxA
    · simp [hstop]
    · by_cases hcan : cancel attempt = true <;> simp [hstop, hcan]

theorem downloadLoop_spec (resp : Nat → Option Nat → HttpResponse)
    (cancel : Nat → Bool) (maxA : Nat) :
    ∀ (fuel attempt : Nat) (file : Option Nat) (lastErr : Option DlErr),
    attempt + fuel = maxA + 1 →
    (downloadLoop resp cancel maxA attempt fuel file lastErr).attempts.length ≤ fuel ∧
    (downloadLoop resp cancel maxA attempt fuel file lastErr).backoffs =
      List.range' attempt
        ((downloadLoop resp cancel maxA attempt fuel file lastErr).attempts.length - 1) ∧
    (∀ a ∈ (downloadLoop resp cancel maxA attempt fuel file lastErr).attempts.dropLast,
      ∃ e, a.2 = some e ∧ dlRetryable e = true) ∧
    ((∀ i, cancel i = false) →
      ∀ att ∈ (downloadLoop resp cancel maxA attempt fuel file lastErr).attempts.getLast?,
        (downloadLoop resp cancel maxA attempt fuel file lastErr).result = att.2) := by
  intro fuel
  induction fuel with
  | zero =>
    intro attempt file lastErr _
    refine ⟨Nat.le_refl _, rfl, ?_, ?_⟩
    · intro a ha; cases ha
    · intro _ att hatt; cases hatt
  | succ f ih =>
    intro attempt file lastErr hinv
    rw [downloadLoop]
    split
    · rename_i hres
      refine ⟨by simp, by simp, ?_, ?_⟩
      · intro a ha; simp at ha
      · intro _ att hatt
        simp only [List.getLast?_singleton, Option.mem_def, Option.some.injEq] at hatt
        subst hatt
        simp [hres]
    · rename_i e hres
      by_cases hstop : dlRetryable e = false ∨ attempt = maxA
      · rw [if_pos hstop]
        refine ⟨by simp, by simp, ?_, ?_⟩
        · intro a ha; simp at ha
        · intro _ att hatt
          simp only [List.getLast?_singleton, Option.mem_def, Option.some.injEq] at hatt
          subst hatt
          simp [hres]
      · rw [if_neg hstop]
        push_neg at hstop
        obtain ⟨hretry, hne⟩ := hstop
        have hretry' : dlRetryable e = true := by
          cases h : dlRetryable e
          · exact absurd h hretry
          · rfl
        by_cases hcan : cancel attempt = true
        · rw [if_pos hcan]
          refine ⟨by simp, by simp, ?_, ?_⟩
          · intro a ha; simp at ha
          · intro hnc att _
            rw [hnc attempt] at hcan
            cases hcan
        · rw [if_neg hcan]
          have hinv' : (attempt + 1) + f = maxA + 1 := by omega
          obtain ⟨hlen, hback, hdrop, hlast⟩ :=
            ih (attempt + 1) (downloadOnce file (resp attempt)).1 (some e) hinv'
          have hfuel : 1 ≤ f := by omega
          obtain ⟨f', rfl⟩ : ∃ f', f = f' + 1 := ⟨f - 1, by omega⟩
          have hne_nil := downloadLoop_attempts_ne_nil resp cancel maxA (attempt + 1) f'
            (downloadOnce file (resp attempt)).1 (some e)
          set rest := downloadLoop resp cancel maxA (attempt + 1) (f' + 1)
            (downloadOnce file (resp attempt)).1 (some e) with hrest
          obtain ⟨b, l, hbl⟩ : ∃ b l, rest.attempts = b :: l := by
            cases hr : rest.attempts with
            | nil => exact absurd hr hne_nil
            | cons b l => exact ⟨b, l, rfl⟩
          refine ⟨?_, ?_, ?_, ?_⟩
          · simp only [List.length_cons]
            omega
          · simp only [List.length_cons, Nat.add_sub_cancel]
            rw [hbl] at hback ⊢
            simp only [List.length_cons] at hback ⊢
            rw [List.range'_succ]
            simp only [Nat.add_sub_cancel] at hback
            rw [hback]
          · intro a ha
            have ha' : a ∈ ((rangeHeaderOf file, (downloadOnce file (resp attempt)).2)
                :: rest.attempts).dropLast := ha
            rw [hbl, List.dropLast_cons₂] at ha'
            rcases List.mem_cons.mp ha' with h1 | h1
            · refine ⟨e, ?_, hretry'⟩
              rw [h1]
              simp [hres]
            · refine hdrop a ?_
              rw [hbl]
              exact h1
          · intro hnc att hatt
            have hatt' : att ∈ ((rangeHeaderOf file, (downloadOnce file (resp attempt)).2)
                :: rest.attempts).getLast? := hatt
            rw [hbl, List.getLast?_cons_cons] at hatt'
            show rest.result = att.2
            refine hlast hnc att ?_
            rw [hbl]
            exact hatt'

/-- C5: when an attempt receives HTTP 416, the partial file at `destPath`
is removed and the attempt fails retryably; the next attempt therefore
finds no partial file, sends no Range header, and a 200 response writes
the full body from byte 0. The final conjunct shows the whole
`downloadToFile` run: attempt 1 gets the 416, attempt 2 restarts with no
Range header and succeeds. -/
theorem c5_416_discards_partial (file : Option Nat)
    (resp : Nat → Option Nat → HttpResponse)
    (h416 : (resp 1 (rangeHeaderOf file)).status = 416)
    (h2s : (resp 2 none).status = 200) (h2t : (resp 2 none).truncated = false) :
    downloadOnce file (resp 1) = (none, some (.http 416 true)) ∧
    dlRetryable (DlErr.http 416 true) = true ∧
    rangeHeaderOf (downloadOnce file (resp 1)).1 = none ∧
    downloadOnce (downloadOnce file (resp 1)).1 (resp 2) =
      (some ((resp 2 none).bodyLen), none) ∧
    downloadToFile "u" resp (fun _ => false) file =
      ⟨none, [(rangeHeaderOf file, some (.http 416 true)), (none, none)], [1],
       some ((resp 2 none).bodyLen)⟩ := by
  have h1 : downloadOnce file (resp 1) = (none, some (.http 416 true)) := by
    simp [downloadOnce, h416]
  have hro : rangeHeaderOf (none : Option Nat) = none := by
    simp [rangeHeaderOf, fileOffset]
  have h2 : downloadOnce (none : Option Nat) (resp 2) =
      (some ((resp 2 none).bodyLen), none) := by
    simp [downloadOnce, rangeHeaderOf, fileOffset, h2s, h2t]
  have hu : isBlank "u" = false := by decide
  refine ⟨h1, rfl, by rw [h1]; exact hro, by rw [h1]; exact h2, ?_⟩
  simp [downloadToFile, hu, downloadLoop, h1, h2, hro, dlRetryable]

/-- Witness for C5: a 37-byte partial file, a server returning 416 on
attempt 1 and a 1000-byte 200 on attempt 2. -/
theorem c5_416_discards_partial_witness :
    let resp : Nat → Option Nat → HttpResponse :=
      fun a _ => if a = 1 then ⟨416, 0, false⟩ else ⟨200, 1000, false⟩
    ((resp 1 (rangeHeaderOf (some 37))).status = 416 ∧
      (resp 2 none).status = 200 ∧ (resp 2 none).truncated = false) ∧
    (downloadOnce (some 37) (resp 1) = (none, some (.http 416 true)) ∧
     dlRetryable (DlErr.http 416 true) = true ∧
     rangeHeaderOf (downloadOnce (some 37) (resp 1)).1 = none ∧
     downloadOnce (downloadOnce (some 37) (resp 1)).1 (resp 2) =
       (some ((resp 2 none).bodyLen), none) ∧
     downloadToFile "u" resp (fun _ => false) (some 37) =
       ⟨none, [(rangeHeaderOf (some 37), some (.http 416 true)), (none, none)], [1],
        some ((resp 2 none).bodyLen)⟩) :=
  ⟨⟨by decide, by decide, by decide⟩,
   c5_416_discards_partial (some 37)
     (fun a _ => if a = 1 then ⟨416, 0, false⟩ else ⟨200, 1000, false⟩)
     (by decide) (by decide) (by decide)⟩

/-- Counterexample to C6 as stated: HTTP 416 is a non-2xx response that is
neither 5xx nor 429 nor a transport error, yet the fetcher retries it —
with all three attempts answering 416, three attempts are made (the claim
says such a response fails with no further attempts), with backoff sleeps
of 1s then 2s. -/
theorem c6_counterexample_416_retried :
    (downloadToFile "u" (fun _ _ => ⟨416, 0, false⟩) (fun _ => false) none).attempts =
      [(none, some (.http 416 true)), (none, some (.http 416 true)),
       (none, some (.http 416 true))] ∧
    (downloadToFile "u" (fun _ _ => ⟨416, 0, false⟩) (fun _ => false) none).backoffs =
      [1, 2] ∧
    (downloadToFile "u" (fun _ _ => ⟨416, 0, false⟩) (fun _ => false) none).result =
      some (.http 416 true) := by
  refine ⟨by decide, by decide, by decide⟩

/-- C6 (amended): the fetcher makes at most 3 attempts; the backoff sleeps
are `attempt × 1s` (1s after attempt 1, 2s after attempt 2); every
non-final attempt failed retryably — retryable being HTTP 5xx, HTTP 429,
HTTP 416, or a transport error per `downloadOnce`/`isRetryableDownload` —
so any other non-2xx response ends the loop at once; and absent
cancellation the loop's result is exactly the last attempt's outcome
(success, or the last error once the budget is exhausted). -/
theorem c6_retry_policy (url : String) (resp : Nat → Option Nat → HttpResponse)
    (cancel : Nat → Bool) (file0 : Option Nat) (hurl : isBlank url = false) :
    (downloadToFile url resp cancel file0).attempts.length ≤ 3 ∧
    (downloadToFile url resp cancel file0).backoffs =
      List.range' 1 ((downloadToFile url resp cancel file0).attempts.length - 1) ∧
    (∀ a ∈ (downloadToFile url resp cancel file0).attempts.dropLast,
      ∃ e, a.2 = some e ∧ dlRetryable e = true) ∧
    ((∀ i, cancel i = false) →
      ∀ att ∈ (downloadToFile url resp cancel file0).attempts.getLast?,
        (downloadToFile url resp cancel file0).result = att.2) := by
  have h := downloadLoop_spec resp cancel 3 3 1 file0 none (by omega)
  simpa [downloadToFile, hurl] using h

/-- Witness for the amended C6: two 500s then a 200 — three attempts,
backoffs [1, 2], final success. -/
theorem c6_retry_policy_witness :
    let resp : Nat → Option Nat → HttpResponse :=
      fun a _ => if a ≤ 2 then ⟨500, 0, false⟩ else ⟨200, 9, false⟩
    isBlank "u" = false ∧
    ((downloadToFile "u" resp (fun _ => false) none).attempts.length ≤ 3 ∧
     (downloadToFile "u" resp (fun _ => false) none).backoffs =
       List.range' 1
         ((downloadToFile "u" resp (fun _ => false) none).attempts.length - 1) ∧
     (∀ a ∈ (downloadToFile "u" resp (fun _ => false) none).attempts.dropLast,
       ∃ e, a.2 = some e ∧ dlRetryable e = true) ∧
     ((∀ i, (fun (_ : Nat) => false) i = false) →
       ∀ att ∈ (downloadToFile "u" resp (fun _ => false) none).attempts.getLast?,
         (downloadToFile "u" resp (fun _ => false) none).result = att.2)) :=
  ⟨by decide,
   c6_retry_policy "u" (fun a _ => if a ≤ 2 then ⟨500, 0, false⟩ else ⟨200, 9, false⟩)
     (fun _ => false) none (by decide)⟩

/-! ### Retention sweep (`cleanupJobs`, `Store.ListJobsBefore`,
`Store.DeleteJobsBefore`) -/

/-- The `ORDER BY created_at ASC` ordering of the `ListJobsBefore` query. -/
def byCreatedAsc (a b : Job) : Prop := a.createdAt ≤ b.createdAt

instance : DecidableRel byCreatedAsc := fun a b => Nat.decLe a.createdAt b.createdAt

instance : IsTotal Job byCreatedAsc := ⟨fun a b => Nat.le_total a.createdAt b.createdAt⟩

instance : IsTrans Job byCreatedAsc := ⟨fun _ _ _ => Nat.le_trans⟩

/-- `Store.ListJobsBefore`: `WHERE created_at < $1 ORDER BY created_at ASC
LIMIT $2`, with the store-side guard `if limit <= 0 { limit = 200 }`. -/
def listJobsBefore (db : JobTable) (before : Nat) (limit : Int) : List Job :=
  let lim := if limit ≤ 0 then (200 : Int) else limit
  (List.insertionSort byCreatedAsc
    (db.filter (fun j => j.createdAt < before))).take lim.toNat

/-- `Store.DeleteJobsBefore`: `DELETE FROM jobs WHERE created_at < $1`;
returns the remaining rows and the affected-row count. -/
def deleteJobsBefore (db : JobTable) (before : Nat) : JobTable × Nat :=
  (db.filter (fun j => ¬ j.createdAt < before),
   (db.filter (fun j => j.createdAt < before)).length)

/-- The paging loop of `cleanupJobs`: fetch up to 200 rows older than the
cutoff; stop when none; best-effort-delete each page's blobs, counting
successes (`objKey j = ""` — a row with no stored object key — is
skipped; `delOk` is whether the object-store delete succeeds); stop when
the page was short; otherwise loop again — crucially over the unchanged
table, since rows are only deleted after the loop. `fuel` bounds the
iterations we are willing to unfold; the Go loop has no such bound, so a
`none` result for every fuel means the loop never exits. -/
def cleanupLoop (objKey : Job → String) (delOk : String → Bool)
    (db : JobTable) (before : Nat) : Nat → Nat → Option Nat
  | _, 0 => none
  | deleted, fuel + 1 =>
    let items := listJobsBefore db before 200
    if items.length = 0 then some deleted
    else
      let deleted' := deleted +
        (items.filter (fun j => objKey j ≠ "" && delOk (objKey j))).length
      if items.length < 200 then some deleted'
      else cleanupLoop objKey delOk db before deleted' fuel

/-- `cleanupJobs`: run the paging loop, then bulk-delete the rows and
return `(rowsDeleted, blobsDeleted)`; `none` when the loop does not
terminate within `fuel` iterations. -/
def cleanupJobs (objKey : Job → String) (delOk : String → Bool)
    (db : JobTable) (before : Nat) (fuel : Nat) : Option (Nat × Nat) :=
  match cleanupLoop objKey delOk db before 0 fuel with
  | none => none
  | some delObjs => some ((deleteJobsBefore db before).2, delObjs)

theorem cleanupLoop_stuck (objKey : Job → String) (delOk : String → Bool)
    (db : JobTable) (before : Nat)
    (hlen : (listJobsBefore db before 200).length = 200) :
    ∀ fuel deleted, cleanupLoop objKey delOk db before deleted fuel = none := by
  intro fuel
  induction fuel with
  | zero => intro d; rfl
  | succ f ih =>
    intro d
    rw [cleanupLoop]
    simp only [hlen]
    norm_num
    exact ih _

/-- A table of 200 rows all older than the cutoff 1. -/
def sweepRows : JobTable :=
  List.replicate 200 ⟨"", "", "", .queued, none, none, 0, 0⟩

set_option maxRecDepth 100000 in
/-- C4 (code bug): with 200 or more rows older than the cutoff, the first
page is always exactly 200 rows, and since no row is deleted inside the
loop, every iteration re-reads the same full page — `cleanupJobs` never
reaches the bulk delete and never returns, for any number of loop
iterations, contradicting the claimed termination of `sweep(cutoff)`. -/
theorem c4_cleanup_never_terminates :
    (listJobsBefore sweepRows 1 200).length = 200 ∧
    (∀ fuel deleted,
      cleanupLoop (fun _ => "") (fun _ => true) sweepRows 1 deleted fuel = none) ∧
    (∀ fuel, cleanupJobs (fun _ => "") (fun _ => true) sweepRows 1 fuel = none) := by
  have hlen : (listJobsBefore sweepRows 1 200).length = 200 := by decide
  have hloop := cleanupLoop_stuck (fun _ => "") (fun _ => true) sweepRows 1 hlen
  refine ⟨hlen, hloop, ?_⟩
  intro fuel
  unfold cleanupJobs
  rw [hloop fuel 0]

end V2M
